import Mathlib

/-!
Verification of the `daf_relation` relational-algebra core: a shallow
embedding of the relation-tree data model and the operation `apply`
routines of `lsst.daf.relation`, with theorems settling the
specification's claims.

The embedding follows `src/python/lsst/daf/relation` closely.  Parts of
the package that are not under `src/` (`_relation.py`, `_leaf_relation.py`,
`_columns.py`) are modelled from the specification where needed; every
such definition is marked `Modelled from the spec`.
-/

/-- Execution engine identity.  Engines compare by identity in the source
(`Engine` is hashable and equality is by reference), modelled as an opaque
numeric id. -/
abbrev Engine := Nat

/-- An opaque identifier for a column (`ColumnTag`), carrying the one
observable attribute `is_key` (whether uniqueness may be established by
this column alone). -/
structure ColumnTag where
  id : Nat
  is_key : Bool
deriving DecidableEq

/-- Modelled from the spec: the `ColumnExpression` sum type of
`_columns.py` (not under `src/`): literals, references to a `ColumnTag`,
and named functions.  Each function carries the set of engines that
support it, implementing the "is this expression supported by engine E?"
query. -/
inductive ColumnExpression where
  | literal (value : Nat)
  | reference (tag : ColumnTag)
  | function (name : Nat) (args : List ColumnTag) (supported : List Engine)
deriving DecidableEq

/-- Modelled from the spec: the set of `ColumnTag`s a column expression
requires. -/
def ColumnExpression.columns_required : ColumnExpression → Finset ColumnTag
  | .literal _ => ∅
  | .reference tag => {tag}
  | .function _ args _ => args.toFinset

/-- Modelled from the spec: whether an engine supports a column
expression. -/
def ColumnExpression.is_supported_by : ColumnExpression → Engine → Bool
  | .literal _, _ => true
  | .reference _, _ => true
  | .function _ _ supported, e => supported.contains e

/-- Modelled from the spec: the `Predicate` sum type of `_columns.py`
(not under `src/`): boolean literals, column references, named functions
(with the engines that support them), and logical combinators. -/
inductive Predicate where
  | literal (value : Bool)
  | reference (tag : ColumnTag)
  | function (name : Nat) (args : List ColumnTag) (supported : List Engine)
  | logical_and (lhs rhs : Predicate)
  | logical_or (lhs rhs : Predicate)
  | logical_not (operand : Predicate)
deriving DecidableEq

/-- Modelled from the spec: the set of `ColumnTag`s a predicate
requires. -/
def Predicate.columns_required : Predicate → Finset ColumnTag
  | .literal _ => ∅
  | .reference tag => {tag}
  | .function _ args _ => args.toFinset
  | .logical_and lhs rhs => lhs.columns_required ∪ rhs.columns_required
  | .logical_or lhs rhs => lhs.columns_required ∪ rhs.columns_required
  | .logical_not operand => operand.columns_required

/-- Modelled from the spec: whether an engine supports a predicate. -/
def Predicate.is_supported_by : Predicate → Engine → Bool
  | .literal _, _ => true
  | .reference _, _ => true
  | .function _ _ supported, e => supported.contains e
  | .logical_and lhs rhs, e => lhs.is_supported_by e && rhs.is_supported_by e
  | .logical_or lhs rhs, e => lhs.is_supported_by e && rhs.is_supported_by e
  | .logical_not operand, e => operand.is_supported_by e

/-- Modelled from the spec: `Predicate.as_trivial` returns `True`,
`False`, or "non-trivial" (here `none`). -/
def Predicate.as_trivial : Predicate → Option Bool
  | .literal value => some value
  | _ => none

/-- Modelled from the spec: `flatten_logical_and` of `_columns.py`.
Returns `none` (Python `False`) when the predicate is trivially false;
otherwise the flattened sequence of conjuncts with nested ANDs expanded
and literal-`True` values dropped. -/
def flatten_logical_and : Predicate → Option (List Predicate)
  | .literal true => some []
  | .literal false => none
  | .logical_and lhs rhs =>
    match flatten_logical_and lhs, flatten_logical_and rhs with
    | some l, some r => some (l ++ r)
    | _, _ => none
  | p => some [p]

/-- Modelled from the spec: `Predicate.logical_and(*operands)` as a smart
constructor over a sequence: an empty sequence is literal `True`, a
singleton is the predicate itself. -/
def Predicate.logical_and_sequence : List Predicate → Predicate
  | [] => .literal true
  | [p] => p
  | p :: rest => .logical_and p (Predicate.logical_and_sequence rest)

/-- `Selection.__post_init__`: simplify-out nested ANDs and literal
true/false values (if flattening reports trivially-false, the predicate
is kept as written). -/
def Selection.normalizePredicate (p : Predicate) : Predicate :=
  match flatten_logical_and p with
  | some seq => Predicate.logical_and_sequence seq
  | none => p

/-- A sort criterion (`SortTerm`): a column expression and a direction. -/
structure SortTerm where
  expression : ColumnExpression
  ascending : Bool
deriving DecidableEq

/-- The closed sum of unary operations that can be attached to a
`UnaryOperationRelation` (`_unary_operation.py` and `_operations/`).
`PartialJoin` is omitted: it never appears in relation trees (its
`apply` always returns a `Join` tree), and no claim concerns it. -/
inductive UnaryOperation where
  | calculation (tag : ColumnTag) (expression : ColumnExpression)
  | projection (columns : Finset ColumnTag)
  | selection (predicate : Predicate)
  | deduplication (unique_key : Option (List ColumnTag))
  | sort (terms : List SortTerm)
  | slice (start : Nat) (stop : Option Nat)
  | materialization (name : Option String)
  | transfer (destination : Engine)
  | identity
deriving DecidableEq

/-- The closed sum of binary operations (`_binary_operation.py`,
`_operations/_join.py`, `_operations/_chain.py`).  A `Join` holds a
predicate and the `min_columns`/`max_columns` pair that is resolved into
`common_columns` by `apply`. -/
inductive BinaryOperation where
  | join (predicate : Predicate) (min_columns : Finset ColumnTag)
      (max_columns : Option (Finset ColumnTag))
  | chain
deriving DecidableEq

/-- The relation tree (`_relation.py` variants).  `leaf` is modelled from
the spec (`LeafRelation` is not under `src/`): explicit engine, columns
and row bounds.  `unary` and `binary` follow `_operation_relations.py`:
the `columns` field is stored, while engine and row bounds are derived
from the operation and target(s).  Payloads are omitted: no claim
observes them. -/
inductive Relation where
  | leaf (engine : Engine) (columns : Finset ColumnTag) (min_rows : Nat)
      (max_rows : Option Nat) (is_locked : Bool)
  | unary (operation : UnaryOperation) (target : Relation)
      (columns : Finset ColumnTag) (is_locked : Bool)
  | binary (operation : BinaryOperation) (lhs rhs : Relation)
      (columns : Finset ColumnTag) (is_locked : Bool)
deriving DecidableEq

/-- The stored column set of a relation. -/
def Relation.columns : Relation → Finset ColumnTag
  | .leaf _ columns _ _ _ => columns
  | .unary _ _ columns _ => columns
  | .binary _ _ _ columns _ => columns

/-- The lock bit of a relation node. -/
def Relation.is_locked : Relation → Bool
  | .leaf _ _ _ _ l => l
  | .unary _ _ _ l => l
  | .binary _ _ _ _ l => l

/-- The engine of a relation: leaves store it; a unary node derives it
via `UnaryOperation.applied_engine` (the target's engine, except that
`Transfer` yields its destination); a binary node uses
`BinaryOperation.applied_engine` (the lhs engine). -/
def Relation.engine : Relation → Engine
  | .leaf e _ _ _ _ => e
  | .unary (.transfer destination) _ _ _ => destination
  | .unary _ target _ _ => target.engine
  | .binary _ lhs _ _ _ => lhs.engine

/-- Minimum row count: leaves store it; unary nodes use the operation's
`applied_min_rows` (`Calculation`, `Projection`, `Sort`, `Marker`s keep
the target's; `Selection` gives 0; `Deduplication` gives 1;
`Slice` gives `min(stop - start, target.min_rows)` when `stop` is set);
binary nodes use `Join.applied_min_rows = 0` or
`Chain.applied_min_rows = lhs + rhs`. -/
def Relation.min_rows : Relation → Nat
  | .leaf _ _ mn _ _ => mn
  | .unary op target _ _ =>
    match op with
    | .calculation _ _ => target.min_rows
    | .projection _ => target.min_rows
    | .selection _ => 0
    | .deduplication _ => 1
    | .sort _ => target.min_rows
    | .slice start stop =>
      match stop with
      | some s => min (s - start) target.min_rows
      | none => target.min_rows
    | .materialization _ => target.min_rows
    | .transfer _ => target.min_rows
    | .identity => target.min_rows
  | .binary op lhs rhs _ _ =>
    match op with
    | .join _ _ _ => 0
    | .chain => lhs.min_rows + rhs.min_rows

/-- Maximum row count (`none` is unbounded): every unary operation
inherits `UnaryOperation.applied_max_rows`, which returns the target's
`max_rows` unchanged; `Join` gives the product (0 if either side is 0,
unbounded if either side is unbounded), `Chain` the sum. -/
def Relation.max_rows : Relation → Option Nat
  | .leaf _ _ _ mx _ => mx
  | .unary _ target _ _ => target.max_rows
  | .binary op lhs rhs _ _ =>
    match op with
    | .join _ _ _ =>
      if lhs.max_rows = some 0 ∨ rhs.max_rows = some 0 then some 0
      else
        match lhs.max_rows, rhs.max_rows with
        | some a, some b => some (a * b)
        | _, _ => none
    | .chain =>
      match lhs.max_rows, rhs.max_rows with
      | some a, some b => some (a + b)
      | _, _ => none

/-- Modelled from the spec: `Relation.is_join_identity` holds exactly
when the relation has no columns and exactly one row. -/
def Relation.is_join_identity (r : Relation) : Bool :=
  decide (r.columns = ∅) && decide (r.min_rows = 1) && decide (r.max_rows = some 1)

/-- Tree size, used as the termination measure of the `apply` routines. -/
def Relation.size : Relation → Nat
  | .leaf _ _ _ _ _ => 1
  | .unary _ target _ _ => target.size + 1
  | .binary _ lhs rhs _ _ => lhs.size + rhs.size + 1

/-- Operation algebraic property `columns_required`: the base class
returns the empty set (`Deduplication`, `Slice`, the `Marker`s and
`Identity` do not override it); `Calculation`, `Projection`, `Selection`
and `Sort` override it. -/
def UnaryOperation.columns_required : UnaryOperation → Finset ColumnTag
  | .calculation _ expression => expression.columns_required
  | .projection columns => columns
  | .selection predicate => predicate.columns_required
  | .sort terms => terms.foldl (fun acc term => acc ∪ term.expression.columns_required) ∅
  | _ => ∅

/-- Operation algebraic property `is_order_dependent`: only `Slice`
overrides the base class's `False`. -/
def UnaryOperation.is_order_dependent : UnaryOperation → Bool
  | .slice _ _ => true
  | _ => false

/-- Operation algebraic property `is_count_dependent`: only `Slice`
overrides the base class's `False`. -/
def UnaryOperation.is_count_dependent : UnaryOperation → Bool
  | .slice _ _ => true
  | _ => false

/-- Operation algebraic property `is_count_invariant`: `RowFilter`s
(`Selection`, `Slice`) and `Deduplication` are not count-invariant. -/
def UnaryOperation.is_count_invariant : UnaryOperation → Bool
  | .selection _ => false
  | .slice _ _ => false
  | .deduplication _ => false
  | _ => true

/-- Operation algebraic property `is_empty_invariant`: `Selection` and
`Slice` may empty their target; everything else cannot. -/
def UnaryOperation.is_empty_invariant : UnaryOperation → Bool
  | .selection _ => false
  | .slice _ _ => false
  | _ => true

/-- `UnaryOperation.applied_columns`: `Calculation` adds its tag,
`Projection` replaces the column set, everything else keeps the
target's columns. -/
def UnaryOperation.applied_columns : UnaryOperation → Relation → Finset ColumnTag
  | .calculation tag _, target => insert tag target.columns
  | .projection columns, _ => columns
  | _, target => target.columns

/-- `UnaryOperation.apply` (the base-class body): build a
`UnaryOperationRelation` with the derived column set. -/
def UnaryOperation.superApply (op : UnaryOperation) (target : Relation) (lock : Bool) :
    Relation :=
  .unary op target (op.applied_columns target) lock

/-- `BinaryOperation.applied_columns`: `Join` takes the union, `Chain`
keeps the lhs columns. -/
def BinaryOperation.applied_columns : BinaryOperation → Relation → Relation → Finset ColumnTag
  | .join _ _ _, lhs, rhs => lhs.columns ∪ rhs.columns
  | .chain, lhs, _ => lhs.columns

/-- `BinaryOperation.apply` (the base-class body): build a
`BinaryOperationRelation` with the derived column set. -/
def BinaryOperation.superApply (op : BinaryOperation) (lhs rhs : Relation) (lock : Bool) :
    Relation :=
  .binary op lhs rhs (op.applied_columns lhs rhs) lock

/-- Errors raised by `apply` (`_exceptions.py`): `ColumnError`,
`EngineError` and `RowOrderError`. -/
inductive RelationError where
  | columnError
  | engineError
  | rowOrderError
deriving DecidableEq

/-- Modelled from the spec: the per-engine order policy.  The source
dispatches `engine.preserves_order(operation)` dynamically to the
engine object; the embedding threads the policy of every engine as an
explicit oracle.  `preserves_order_chain` answers the same question for
the binary `Chain` operation, which the source passes to the same
method. -/
structure EnginePolicy where
  preserves_order : Engine → UnaryOperation → Bool
  preserves_order_chain : Engine → Bool

/-- Modelled from the spec: whether a relation is ordered.  A `Sort`
node imposes an order; the order survives an operation exactly when the
engine it acts in declares the operation order-preserving.  Binary
operations do not propagate ordering. -/
def Relation.isOrdered (P : EnginePolicy) : Relation → Bool
  | .leaf _ _ _ _ _ => false
  | .unary op target _ _ =>
    (match op with | .sort _ => true | _ => false)
      || (P.preserves_order target.engine op && target.isOrdered P)
  | .binary _ _ _ _ _ => false

/-- Modelled from the spec: remove the upstream `Sort` operations that
make a relation ordered (`strip_ordering` behavior of
`Relation.expect_unordered`, `_relation.py` not under `src/`). -/
def Relation.stripOrdering (P : EnginePolicy) : Relation → Relation
  | .unary (.sort _) target _ _ => target.stripOrdering P
  | .unary op target columns lock =>
    if P.preserves_order target.engine op && target.isOrdered P then
      .unary op (target.stripOrdering P) columns lock
    else
      .unary op target columns lock
  | r => r

/-- Modelled from the spec: `Relation.expect_unordered`.  Callers pass
`None` as the message when `strip_ordering` is set; here the flag is
passed directly: an ordered relation is stripped when the flag is set
and otherwise raises `RowOrderError`. -/
def Relation.expect_unordered (P : EnginePolicy) (strip : Bool) (r : Relation) :
    Except RelationError Relation :=
  if r.isOrdered P then
    if strip then .ok (r.stripOrdering P) else .error .rowOrderError
  else .ok r

/-- The guard shared by the unary `apply` routines: when the target's
engine does not declare the operation order-preserving, call
`expect_unordered`. -/
def Relation.checkOrder (P : EnginePolicy) (op : UnaryOperation) (strip : Bool)
    (r : Relation) : Except RelationError Relation :=
  if ¬ P.preserves_order r.engine op then r.expect_unordered P strip else .ok r

theorem Relation.stripOrdering_size_le (P : EnginePolicy) (r : Relation) :
    (r.stripOrdering P).size ≤ r.size := by
  induction r with
  | leaf _ _ _ _ _ => simp [Relation.stripOrdering, Relation.size]
  | unary op target columns lock ih =>
    cases op
    case sort terms =>
      simp only [Relation.stripOrdering, Relation.size]
      omega
    all_goals
      simp only [Relation.stripOrdering, Relation.size]
      split
      · simp only [Relation.size]; omega
      · simp [Relation.size]
  | binary op lhs rhs columns lock ihl ihr =>
    simp [Relation.stripOrdering, Relation.size]

theorem Relation.expect_unordered_ok_size_le (P : EnginePolicy) (strip : Bool)
    (r r' : Relation) (h : r.expect_unordered P strip = .ok r') : r'.size ≤ r.size := by
  unfold Relation.expect_unordered at h
  split at h
  · split at h
    · cases h
      exact Relation.stripOrdering_size_le P r
    · cases h
  · cases h
    exact Nat.le_refl _

theorem Relation.checkOrder_ok_size_le (P : EnginePolicy) (op : UnaryOperation)
    (strip : Bool) (r r' : Relation) (h : r.checkOrder P op strip = .ok r') :
    r'.size ≤ r.size := by
  unfold Relation.checkOrder at h
  split at h
  · exact Relation.expect_unordered_ok_size_le P strip r r' h
  · cases h
    exact Nat.le_refl _

/-- `Transfer.apply`: a no-op when the target is already in the
destination engine; otherwise guard ordering and build the node. -/
def Transfer.apply (P : EnginePolicy) (destination : Engine) (target : Relation)
    (lock strip : Bool) : Except RelationError Relation :=
  if target.engine = destination then .ok target
  else
    match target.checkOrder P (.transfer destination) strip with
    | .error e => .error e
    | .ok t => .ok ((UnaryOperation.transfer destination).superApply t lock)

/-- `Materialization.apply`: a `Leaf` or an existing materialization is
returned unchanged; otherwise guard ordering, default the name, and
build the node. -/
def Materialization.apply (P : EnginePolicy) (name : Option String) (target : Relation)
    (namePfx : String) (lock strip : Bool) : Except RelationError Relation :=
  match target with
  | .leaf _ _ _ _ _ => .ok target
  | .unary (.materialization _) _ _ _ => .ok target
  | _ =>
    match target.checkOrder P (.materialization name) strip with
    | .error e => .error e
    | .ok t =>
      -- Modelled from the spec: `Engine.get_relation_name` mints a unique
      -- name; relation names do not affect any claim, so the prefix stands
      -- in for the minted name.
      let n := name.getD namePfx
      .ok ((UnaryOperation.materialization (some n)).superApply t lock)

/-- `Join.applied_common_columns`: when `min_columns` and `max_columns`
differ, the common columns are the key columns shared by both sides
(intersected with `max_columns` when present), required to be a superset
of `min_columns`. -/
def Join.applied_common_columns (min_columns : Finset ColumnTag)
    (max_columns : Option (Finset ColumnTag)) (lhs rhs : Relation) :
    Except RelationError (Finset ColumnTag) :=
  if max_columns ≠ some min_columns then
    let common := (lhs.columns ∩ rhs.columns).filter (fun tag => tag.is_key)
    let common := match max_columns with
      | some m => common ∩ m
      | none => common
    if ¬ min_columns ⊆ common then .error .columnError else .ok common
  else .ok min_columns

/-- `Join.apply`: validate engines, predicate support and predicate
columns; resolve `common_columns` when unresolved, otherwise check the
operand columns against the already-resolved common columns; require
both operands unordered; short-circuit join identities; build the
node. -/
def Join.apply (P : EnginePolicy) (predicate : Predicate)
    (min_columns : Finset ColumnTag) (max_columns : Option (Finset ColumnTag))
    (lhs rhs : Relation) (lock strip : Bool) : Except RelationError Relation :=
  if lhs.engine ≠ rhs.engine then .error .engineError
  else if ¬ predicate.is_supported_by lhs.engine then .error .engineError
  else if ¬ predicate.columns_required ⊆ lhs.columns ∪ rhs.columns then .error .columnError
  else
    match
      (if max_columns ≠ some min_columns then
        match Join.applied_common_columns min_columns max_columns lhs rhs with
        | .error e => .error e
        | .ok common => .ok (BinaryOperation.join predicate common (some common))
      else
        -- The source checks `lhs.columns >= self.common_columns` twice:
        -- the second check's error message is about the right-hand side,
        -- but its condition tests the left-hand side again (claim C1).
        if ¬ min_columns ⊆ lhs.columns then .error .columnError
        else if ¬ min_columns ⊆ lhs.columns then .error .columnError
        else .ok (BinaryOperation.join predicate min_columns max_columns) :
        Except RelationError BinaryOperation) with
    | .error e => .error e
    | .ok operation =>
      match lhs.expect_unordered P strip with
      | .error e => .error e
      | .ok lhs' =>
        match rhs.expect_unordered P strip with
        | .error e => .error e
        | .ok rhs' =>
          if lhs'.is_join_identity then .ok rhs'
          else if rhs'.is_join_identity then .ok lhs'
          else .ok (operation.superApply lhs' rhs' lock)

/-- `Chain.apply`: require both operands unordered unless the engine
preserves order for chains, require matching engines and columns, and
build the node (never returning an operand, even an empty one). -/
def Chain.apply (P : EnginePolicy) (lhs rhs : Relation) (lock strip : Bool) :
    Except RelationError Relation :=
  match (if ¬ P.preserves_order_chain lhs.engine then lhs.expect_unordered P strip
         else .ok lhs) with
  | .error e => .error e
  | .ok lhs' =>
    match (if ¬ P.preserves_order_chain rhs.engine then rhs.expect_unordered P strip
           else .ok rhs) with
    | .error e => .error e
    | .ok rhs' =>
      if lhs'.engine ≠ rhs'.engine then .error .engineError
      else if lhs'.columns ≠ rhs'.columns then .error .columnError
      else .ok (BinaryOperation.chain.superApply lhs' rhs' lock)

/-- `Slice.apply`: `(0, None)` is a no-op; a slice over a slice merges
into a single slice over the nested target; otherwise build the node.
`Slice.apply` performs no ordering or column checks. -/
def Slice.apply (start : Nat) (stop : Option Nat) (target : Relation) (lock : Bool) :
    Relation :=
  if start = 0 ∧ stop = none then target
  else
    match target with
    | .unary (.slice previous_start previous_stop) nested_target _ _ =>
      let new_start := previous_start + start
      let new_stop : Option Nat :=
        match previous_stop, stop with
        | none, none => none
        | none, some s => some (s + previous_start)
        | some p, none => some p
        | some p, some s => some (min p (s + previous_start))
      Slice.apply new_start new_stop nested_target lock
    | _ => (UnaryOperation.slice start stop).superApply target lock

/-- The per-term engine-support and column checks of `Sort.apply`. -/
def Sort.checkTerms (terms : List SortTerm) (target : Relation) :
    Except RelationError Unit :=
  match terms with
  | [] => .ok ()
  | term :: rest =>
    if ¬ term.expression.is_supported_by target.engine then .error .engineError
    else if ¬ term.expression.columns_required ⊆ target.columns then .error .columnError
    else Sort.checkTerms rest target

/-- `Sort.apply` at its default `preferred_engine=None` (as the optimizer
invokes it recursively): empty terms are a no-op; each term must be
supported and reference existing columns; a sort over a sort merges by
concatenating terms (newer first, stable-deduping). -/
def Sort.applyDefault (terms : List SortTerm) (target : Relation) (lock : Bool) :
    Except RelationError Relation :=
  if terms = [] then .ok target
  else
    match Sort.checkTerms terms target with
    | .error e => .error e
    | .ok _ =>
      match target with
      | .unary (.sort previous_terms) nested_target _ _ =>
        let new_terms := previous_terms.foldl
          (fun acc term => if term ∈ acc then acc else acc ++ [term]) terms
        Sort.applyDefault new_terms nested_target lock
      | _ => .ok ((UnaryOperation.sort terms).superApply target lock)

/-- `Calculation.apply` at its default `preferred_engine=None`: guard
ordering, require the expression's columns, require the tag to be new,
require engine support, and build the node. -/
def Calculation.applyDefault (P : EnginePolicy) (tag : ColumnTag)
    (expression : ColumnExpression) (target : Relation) (lock strip : Bool) :
    Except RelationError Relation :=
  match target.checkOrder P (.calculation tag expression) strip with
  | .error e => .error e
  | .ok t =>
    if ¬ expression.columns_required ⊆ t.columns then .error .columnError
    else if tag ∈ t.columns then .error .columnError
    else if ¬ expression.is_supported_by t.engine then .error .engineError
    else .ok ((UnaryOperation.calculation tag expression).superApply t lock)

/-- `Selection.apply` at its default `preferred_engine=None`: a
trivially-true predicate is a no-op; require the predicate's columns;
guard ordering; require engine support; merge back-to-back selections
by AND; otherwise build the node. -/
def Selection.applyDefault (P : EnginePolicy) (predicate : Predicate)
    (target : Relation) (lock strip : Bool) : Except RelationError Relation :=
  if predicate.as_trivial = some true then .ok target
  else if ¬ predicate.columns_required ⊆ target.columns then .error .columnError
  else
    match h : target.checkOrder P (.selection predicate) strip with
    | .error e => .error e
    | .ok t =>
      if ¬ predicate.is_supported_by t.engine then .error .engineError
      else
        match t with
        | .unary (.selection other_predicate) nested_target _ _ =>
          Selection.applyDefault P
            (Selection.normalizePredicate (.logical_and other_predicate predicate))
            nested_target false false
        | _ => .ok ((UnaryOperation.selection predicate).superApply t lock)
termination_by target.size
decreasing_by
  have hle := Relation.checkOrder_ok_size_le P (.selection predicate) strip target _ h
  simp only [Relation.size] at hle
  omega

/-- `Projection.apply` at its default `preferred_engine=None`: a
projection to the target's own columns is a no-op; guard ordering;
require the projected columns to exist; fold a projection over a
projection to the nested target; absorb a calculation whose tag is
dropped; otherwise build the node. -/
def Projection.applyDefault (P : EnginePolicy) (columns : Finset ColumnTag)
    (target : Relation) (lock strip : Bool) : Except RelationError Relation :=
  if columns = target.columns then .ok target
  else
    match h : target.checkOrder P (.projection columns) strip with
    | .error e => .error e
    | .ok t =>
      if ¬ columns ⊆ t.columns then .error .columnError
      else
        match t with
        | .unary (.projection _) nested_target _ _ =>
          Projection.applyDefault P columns nested_target false false
        | .unary (.calculation tag _) nested_target _ _ =>
          if tag ∉ columns then Projection.applyDefault P columns nested_target false false
          else .ok ((UnaryOperation.projection columns).superApply t lock)
        | _ => .ok ((UnaryOperation.projection columns).superApply t lock)
termination_by target.size
decreasing_by
  · have hle := Relation.checkOrder_ok_size_le P (.projection columns) strip target _ h
    simp only [Relation.size] at hle
    omega
  · have hle := Relation.checkOrder_ok_size_le P (.projection columns) strip target _ h
    simp only [Relation.size] at hle
    omega

/-- A total order on column tags used to model Python's (unspecified)
set iteration order deterministically. -/
def ColumnTag.key_value (t : ColumnTag) : Nat :=
  2 * t.id + (if t.is_key then 1 else 0)

theorem ColumnTag.key_value_injective (a b : ColumnTag)
    (h : a.key_value = b.key_value) : a = b := by
  cases a with
  | mk ida ka =>
    cases b with
    | mk idb kb =>
      cases ka <;> cases kb <;>
        simp [ColumnTag.key_value] at h ⊢ <;> omega

/-- Order on column tags by `key_value`. -/
def ColumnTag.leOrder (a b : ColumnTag) : Prop := a.key_value ≤ b.key_value

instance : DecidableRel ColumnTag.leOrder := fun a b =>
  inferInstanceAs (Decidable (a.key_value ≤ b.key_value))

instance : IsTrans ColumnTag ColumnTag.leOrder :=
  ⟨fun _ _ _ h1 h2 => Nat.le_trans h1 h2⟩

instance : IsAntisymm ColumnTag ColumnTag.leOrder :=
  ⟨fun a b h1 h2 => ColumnTag.key_value_injective a b (Nat.le_antisymm h1 h2)⟩

instance : IsTotal ColumnTag ColumnTag.leOrder :=
  ⟨fun a b => Nat.le_total a.key_value b.key_value⟩

/-- `Deduplication._applied_unique_key`: with no key, the key columns of
the target (raising `ColumnError` when there are none); with a given
key, the subset check as the source's error message intends it.  The
second branch is dead code: `apply` only calls this method when
`unique_key` is `None`, and the source's subset check even reads a local
variable that is unbound on that path (claim C10). -/
def Deduplication.appliedUniqueKey (unique_key : Option (List ColumnTag))
    (target : Relation) : Except RelationError (List ColumnTag) :=
  match unique_key with
  | none =>
    -- Python iterates a set here; the iteration order is unspecified and
    -- modelled as ascending `key_value` order.
    let uk := (target.columns.filter (fun t => t.is_key)).sort ColumnTag.leOrder
    if uk = [] then .error .columnError else .ok uk
  | some k =>
    if ¬ k.toFinset ⊆ target.columns then .error .columnError else .ok k

/-- `Deduplication.apply` at its default `preferred_engine=None`, for an
operation whose `unique_key` is already resolved: guard ordering and
build the node.  The source's final `return super().apply(target)` does
not forward `lock`, so the node is built unlocked. -/
def Deduplication.applyDefaultWithKey (P : EnginePolicy) (unique_key : List ColumnTag)
    (target : Relation) (lock strip : Bool) : Except RelationError Relation :=
  match target.checkOrder P (.deduplication (some unique_key)) strip with
  | .error e => .error e
  | .ok t => .ok ((UnaryOperation.deduplication (some unique_key)).superApply t false)

/-- `Deduplication.apply` at its default `preferred_engine=None`: guard
ordering; resolve a missing unique key from the target's key columns and
re-apply (the re-entrant `Deduplication(unique_key).apply(target, ...)`
of the source is `applyDefaultWithKey`, whose body is the `apply` body
for a resolved key); build the node. -/
def Deduplication.applyDefault (P : EnginePolicy) (unique_key : Option (List ColumnTag))
    (target : Relation) (lock strip : Bool) : Except RelationError Relation :=
  match unique_key with
  | some k => Deduplication.applyDefaultWithKey P k target lock strip
  | none =>
    match target.checkOrder P (.deduplication none) strip with
    | .error e => .error e
    | .ok t =>
      match Deduplication.appliedUniqueKey none t with
      | .error e => .error e
      | .ok uk => Deduplication.applyDefaultWithKey P uk t lock strip

/-- Generic dynamic dispatch `operation.apply(target)` with each
operation's own default optional arguments, as invoked inside the
`_insert_recursive` routines (`Materialization.apply` defaults to
`lock=True`, everything else to `lock=False`; no preferred engine). -/
def UnaryOperation.applyDefaults (P : EnginePolicy) (op : UnaryOperation)
    (target : Relation) : Except RelationError Relation :=
  match op with
  | .calculation tag expression => Calculation.applyDefault P tag expression target false false
  | .projection columns => Projection.applyDefault P columns target false false
  | .selection predicate => Selection.applyDefault P predicate target false false
  | .deduplication unique_key => Deduplication.applyDefault P unique_key target false false
  | .sort terms => Sort.applyDefault terms target false
  | .slice start stop => .ok (Slice.apply start stop target false)
  | .materialization name => Materialization.apply P name target "materialization" true false
  | .transfer destination => Transfer.apply P destination target false false
  | .identity => .ok target

/-- `Deduplication._insert_recursive`: push a deduplication upstream
toward the preferred engine.  An existing deduplication is reused; the
operation may cross any non-count-dependent operation that keeps all of
its target's columns (order-dependent ones only in order-preserving
engines); at a `Join`, both branches are rewritten and recombined. -/
def Deduplication.insertRecursive (P : EnginePolicy)
    (unique_key : Option (List ColumnTag)) (target : Relation)
    (preferred_engine : Engine) (lock : Bool) :
    Except RelationError (Option Relation) :=
  if target.is_locked then .ok none
  else
    match target with
    | .unary operation next_target _ _ =>
      match operation with
      | .deduplication _ => .ok (some target)
      | _ =>
        if operation.is_count_dependent then .ok none
        else if operation.is_order_dependent
            && ¬ P.preserves_order next_target.engine operation then .ok none
        else if ¬ next_target.columns ⊆ target.columns then .ok none
        else if next_target.engine = preferred_engine then
          match Deduplication.applyDefault P unique_key next_target lock false with
          | .error e => .error e
          | .ok applied => UnaryOperation.applyDefaults P operation applied |>.map some
        else
          match Deduplication.insertRecursive P unique_key next_target preferred_engine lock with
          | .error e => .error e
          | .ok (some new_target) =>
            UnaryOperation.applyDefaults P operation new_target |>.map some
          | .ok none => .ok none
    | .binary (.join predicate min_columns max_columns) next_lhs next_rhs _ _ =>
      match Deduplication.insertRecursive P unique_key next_lhs preferred_engine lock with
      | .error e => .error e
      | .ok new_join_lhs =>
        match Deduplication.insertRecursive P unique_key next_rhs preferred_engine lock with
        | .error e => .error e
        | .ok new_join_rhs =>
          match new_join_lhs, new_join_rhs with
          | some _, some r =>
            -- Source line 209: `operation.apply(new_join_rhs, new_join_rhs)`;
            -- the right-hand branch is joined with itself (claim C2).
            Join.apply P predicate min_columns max_columns r r false false |>.map some
          | _, _ => .ok none
    | _ => .ok none

/-- `Selection._insert_recursive`: push a selection upstream toward the
preferred engine; at a `Join`, push into every branch whose columns
suffice (the source's object-identity tests on the rewritten branches
are modelled as "the recursion produced a result"). -/
def Selection.insertRecursive (P : EnginePolicy) (predicate : Predicate)
    (target : Relation) (preferred_engine : Engine) (lock : Bool) :
    Except RelationError (Option Relation) :=
  if target.is_locked then .ok none
  else
    match target with
    | .unary operation next_target _ _ =>
      if operation.is_count_dependent then .ok none
      else if operation.is_order_dependent
          && ¬ P.preserves_order next_target.engine (.selection predicate) then .ok none
      else if ¬ predicate.columns_required ⊆ next_target.columns then .ok none
      else if next_target.engine = preferred_engine then
        match Selection.applyDefault P predicate next_target lock false with
        | .error e => .error e
        | .ok applied => UnaryOperation.applyDefaults P operation applied |>.map some
      else
        match Selection.insertRecursive P predicate next_target preferred_engine lock with
        | .error e => .error e
        | .ok (some new_target) =>
          UnaryOperation.applyDefaults P operation new_target |>.map some
        | .ok none => .ok none
    | .binary (.join pr min_columns max_columns) next_lhs next_rhs _ _ =>
      match (if predicate.columns_required ⊆ next_lhs.columns
             then Selection.insertRecursive P predicate next_lhs preferred_engine lock
             else .ok none : Except RelationError (Option Relation)) with
      | .error e => .error e
      | .ok new_join_lhs =>
        match (if predicate.columns_required ⊆ next_rhs.columns
               then Selection.insertRecursive P predicate next_rhs preferred_engine lock
               else .ok none : Except RelationError (Option Relation)) with
        | .error e => .error e
        | .ok new_join_rhs =>
          if new_join_lhs.isSome ∨ new_join_rhs.isSome then
            Join.apply P pr min_columns max_columns (new_join_lhs.getD next_lhs)
              (new_join_rhs.getD next_rhs) false false |>.map some
          else .ok none
    | .binary .chain next_lhs next_rhs _ _ =>
      match Selection.insertRecursive P predicate next_lhs preferred_engine lock with
      | .error e => .error e
      | .ok new_union_lhs =>
        match Selection.insertRecursive P predicate next_rhs preferred_engine lock with
        | .error e => .error e
        | .ok new_union_rhs =>
          match new_union_lhs, new_union_rhs with
          | some l, some r => Chain.apply P l r false false |>.map some
          | _, _ => .ok none
    | _ => .ok none

/-- `Calculation._insert_recursive`: push a calculation upstream toward
the preferred engine; a crossed `Projection` is augmented with the
calculated tag; at a `Join`, push into exactly one branch. -/
def Calculation.insertRecursive (P : EnginePolicy) (tag : ColumnTag)
    (expression : ColumnExpression) (target : Relation) (preferred_engine : Engine)
    (lock : Bool) : Except RelationError (Option Relation) :=
  if target.is_locked then .ok none
  else
    match target with
    | .unary operation0 next_target _ _ =>
      let operation :=
        match operation0 with
        | .projection columns => .projection (columns ∪ {tag})
        | _ => operation0
      if ¬ expression.columns_required ⊆ next_target.columns then .ok none
      else if operation.is_order_dependent
          && ¬ P.preserves_order next_target.engine (.calculation tag expression) then
        .ok none
      else if next_target.engine = preferred_engine then
        match Calculation.applyDefault P tag expression next_target lock false with
        | .error e => .error e
        | .ok applied => UnaryOperation.applyDefaults P operation applied |>.map some
      else
        match Calculation.insertRecursive P tag expression next_target preferred_engine lock with
        | .error e => .error e
        | .ok (some new_target) =>
          UnaryOperation.applyDefaults P operation new_target |>.map some
        | .ok none => .ok none
    | .binary (.join pr min_columns max_columns) next_lhs next_rhs _ _ =>
      match (if expression.columns_required ⊆ next_lhs.columns
             then Calculation.insertRecursive P tag expression next_lhs preferred_engine lock
             else .ok none : Except RelationError (Option Relation)) with
      | .error e => .error e
      | .ok (some new_join_lhs) =>
        Join.apply P pr min_columns max_columns new_join_lhs next_rhs false false |>.map some
      | .ok none =>
        match (if expression.columns_required ⊆ next_rhs.columns
               then Calculation.insertRecursive P tag expression next_rhs preferred_engine lock
               else .ok none : Except RelationError (Option Relation)) with
        | .error e => .error e
        | .ok (some new_join_rhs) =>
          Join.apply P pr min_columns max_columns next_lhs new_join_rhs false false |>.map some
        | .ok none => .ok none
    | .binary .chain next_lhs next_rhs _ _ =>
      match Calculation.insertRecursive P tag expression next_lhs preferred_engine lock with
      | .error e => .error e
      | .ok new_union_lhs =>
        match Calculation.insertRecursive P tag expression next_rhs preferred_engine lock with
        | .error e => .error e
        | .ok new_union_rhs =>
          match new_union_lhs, new_union_rhs with
          | some l, some r => Chain.apply P l r false false |>.map some
          | _, _ => .ok none
    | _ => .ok none

/-- `Projection._insert_recursive`: push a projection upstream toward
the preferred engine; failure is signalled by returning the target
unchanged.  A crossed operation's required columns are added to the
recursed projection; an inner projection or a dropped calculation is
absorbed (and, per the source's fall-through, the original target is
then returned); at a `Join`, each branch is narrowed to the columns the
join still needs.  The source's object-identity tests are modelled as
structural equality. -/
def Projection.insertRecursive (P : EnginePolicy) (columns : Finset ColumnTag)
    (target : Relation) (preferred_engine : Engine) (lock : Bool) :
    Except RelationError Relation :=
  if target.is_locked then .ok target
  else
    match target with
    | .unary operation next_target _ _ =>
      let reapply_after : Option UnaryOperation :=
        match operation with
        | .projection _ => none
        | .calculation tag _ => if tag ∉ columns then none else some operation
        | _ => some operation
      let recurse_with : Finset ColumnTag :=
        if ¬ operation.columns_required ⊆ columns then columns ∪ operation.columns_required
        else columns
      if operation.is_order_dependent
          && ¬ P.preserves_order next_target.engine (.projection columns) then
        .ok target
      else if next_target.engine = preferred_engine then
        match Projection.applyDefault P columns next_target lock false with
        | .error e => .error e
        | .ok applied => UnaryOperation.applyDefaults P operation applied
      else
        match Projection.insertRecursive P recurse_with next_target preferred_engine lock with
        | .error e => .error e
        | .ok new_target =>
          if reapply_after = some operation ∧ new_target = next_target then .ok target
          else
            match reapply_after with
            | some op' => UnaryOperation.applyDefaults P op' new_target
            | none => .ok target
    | .binary (.join predicate min_columns max_columns) next_lhs next_rhs _ _ =>
      -- Reading `Join.common_columns` raises `ColumnError` unless resolved.
      if max_columns ≠ some min_columns then .error .columnError
      else
        let recurse_columns := columns ∪ min_columns ∪ predicate.columns_required
        match (if recurse_columns ⊇ next_lhs.columns then .ok next_lhs
               else Projection.insertRecursive P (recurse_columns ∩ next_lhs.columns)
                 next_lhs preferred_engine lock : Except RelationError Relation) with
        | .error e => .error e
        | .ok new_join_lhs =>
          match (if recurse_columns ⊇ next_rhs.columns then .ok next_rhs
                 else Projection.insertRecursive P (recurse_columns ∩ next_rhs.columns)
                   next_rhs preferred_engine lock : Except RelationError Relation) with
          | .error e => .error e
          | .ok new_join_rhs =>
            if new_join_lhs = next_lhs ∧ new_join_rhs = next_rhs then .ok target
            else Join.apply P predicate min_columns max_columns new_join_lhs new_join_rhs
              false false
    | .binary .chain next_lhs next_rhs _ _ =>
      match Projection.insertRecursive P columns next_lhs preferred_engine lock with
      | .error e => .error e
      | .ok new_union_lhs =>
        match Projection.insertRecursive P columns next_rhs preferred_engine lock with
        | .error e => .error e
        | .ok new_union_rhs =>
          -- Source line 247 tests `new_union_lhs is next_rhs` (not the rhs
          -- result), reproduced as written.
          if new_union_lhs = next_lhs ∧ new_union_lhs = next_rhs then .ok target
          else if new_union_lhs.columns ≠ new_union_rhs.columns then
            if new_union_lhs.columns ∪ new_union_rhs.columns = columns then .ok target
            else
              -- Source lines 257-258 recompute the recursion with `self`.
              match Projection.insertRecursive P columns next_lhs preferred_engine lock with
              | .error e => .error e
              | .ok retry_lhs =>
                match Projection.insertRecursive P columns next_rhs preferred_engine lock with
                | .error e => .error e
                | .ok retry_rhs => Chain.apply P retry_lhs retry_rhs false false
          else Chain.apply P new_union_lhs new_union_rhs false false
    | _ => .ok target

/-- `Deduplication.apply` (the full entry point), for an operation whose
`unique_key` is already resolved: guard ordering; when a preferred
engine differs from the target's, backtrack via `_insert_recursive`,
else transfer, else optionally require; finally build the node (the
source's `return super().apply(target)` does not forward `lock`). -/
def Deduplication.applyWithKey (P : EnginePolicy) (unique_key : List ColumnTag)
    (target : Relation) (preferred_engine : Option Engine)
    (backtrack transfer require_preferred_engine lock strip : Bool) :
    Except RelationError Relation :=
  match target.checkOrder P (.deduplication (some unique_key)) strip with
  | .error e => .error e
  | .ok t =>
    match (match preferred_engine with
           | some pe =>
             if pe ≠ t.engine then
               match (if backtrack then
                        Deduplication.insertRecursive P (some unique_key) t pe lock
                      else .ok none : Except RelationError (Option Relation)) with
               | .error e => .error e
               | .ok (some result) => .ok (.inl result)
               | .ok none =>
                 if transfer then
                   match Transfer.apply P pe t false false with
                   | .error e => .error e
                   | .ok t2 => .ok (.inr t2)
                 else if require_preferred_engine then .error .engineError
                 else .ok (.inr t)
             else .ok (.inr t)
           | none => .ok (.inr t) : Except RelationError (Relation ⊕ Relation)) with
    | .error e => .error e
    | .ok (.inl result) => .ok result
    | .ok (.inr t2) =>
      .ok ((UnaryOperation.deduplication (some unique_key)).superApply t2 false)

/-- `Deduplication.apply` (the full entry point): guard ordering; resolve
a missing unique key from the target's key columns and re-apply (the
re-entrant `Deduplication(unique_key).apply(target, ...)` of the source
is `applyWithKey`, whose body is the `apply` body for a resolved key). -/
def Deduplication.apply (P : EnginePolicy) (unique_key : Option (List ColumnTag))
    (target : Relation) (preferred_engine : Option Engine)
    (backtrack transfer require_preferred_engine lock strip : Bool) :
    Except RelationError Relation :=
  match unique_key with
  | some k =>
    Deduplication.applyWithKey P k target preferred_engine backtrack transfer
      require_preferred_engine lock strip
  | none =>
    match target.checkOrder P (.deduplication none) strip with
    | .error e => .error e
    | .ok t =>
      match Deduplication.appliedUniqueKey none t with
      | .error e => .error e
      | .ok uk =>
        Deduplication.applyWithKey P uk t preferred_engine backtrack transfer
          require_preferred_engine lock strip

/-- `Selection.apply` (the full entry point): a trivially-true predicate
is a no-op; require the predicate's columns; guard ordering; when a
preferred engine differs, backtrack, else transfer, else optionally
require; require engine support; merge back-to-back selections by AND;
otherwise build the node. -/
def Selection.apply (P : EnginePolicy) (predicate : Predicate) (target : Relation)
    (preferred_engine : Option Engine)
    (backtrack transfer require_preferred_engine lock strip : Bool) :
    Except RelationError Relation :=
  if predicate.as_trivial = some true then .ok target
  else if ¬ predicate.columns_required ⊆ target.columns then .error .columnError
  else
    match target.checkOrder P (.selection predicate) strip with
    | .error e => .error e
    | .ok t =>
      match (match preferred_engine with
             | some pe =>
               if pe ≠ t.engine then
                 match (if backtrack then Selection.insertRecursive P predicate t pe lock
                        else .ok none : Except RelationError (Option Relation)) with
                 | .error e => .error e
                 | .ok (some result) => .ok (.inl result)
                 | .ok none =>
                   if transfer then
                     match Transfer.apply P pe t false false with
                     | .error e => .error e
                     | .ok t2 => .ok (.inr t2)
                   else if require_preferred_engine then .error .engineError
                   else .ok (.inr t)
               else .ok (.inr t)
             | none => .ok (.inr t) : Except RelationError (Relation ⊕ Relation)) with
      | .error e => .error e
      | .ok (.inl result) => .ok result
      | .ok (.inr t2) =>
        if ¬ predicate.is_supported_by t2.engine then .error .engineError
        else
          match t2 with
          | .unary (.selection other_predicate) nested_target _ _ =>
            Selection.applyDefault P
              (Selection.normalizePredicate (.logical_and other_predicate predicate))
              nested_target false false
          | _ => .ok ((UnaryOperation.selection predicate).superApply t2 lock)

/-- `Calculation.apply` (the full entry point): guard ordering; require
the expression's columns and a fresh tag; when a preferred engine
differs, backtrack, else transfer, else optionally require; require
engine support; build the node. -/
def Calculation.apply (P : EnginePolicy) (tag : ColumnTag)
    (expression : ColumnExpression) (target : Relation)
    (preferred_engine : Option Engine)
    (backtrack transfer require_preferred_engine lock strip : Bool) :
    Except RelationError Relation :=
  match target.checkOrder P (.calculation tag expression) strip with
  | .error e => .error e
  | .ok t =>
    if ¬ expression.columns_required ⊆ t.columns then .error .columnError
    else if tag ∈ t.columns then .error .columnError
    else
      match (match preferred_engine with
             | some pe =>
               if pe ≠ t.engine then
                 match (if backtrack then
                          Calculation.insertRecursive P tag expression t pe lock
                        else .ok none : Except RelationError (Option Relation)) with
                 | .error e => .error e
                 | .ok (some result) => .ok (.inl result)
                 | .ok none =>
                   if transfer then
                     match Transfer.apply P pe t false false with
                     | .error e => .error e
                     | .ok t2 => .ok (.inr t2)
                   else if require_preferred_engine then .error .engineError
                   else .ok (.inr t)
               else .ok (.inr t)
             | none => .ok (.inr t) : Except RelationError (Relation ⊕ Relation)) with
      | .error e => .error e
      | .ok (.inl result) => .ok result
      | .ok (.inr t2) =>
        if ¬ expression.is_supported_by t2.engine then .error .engineError
        else .ok ((UnaryOperation.calculation tag expression).superApply t2 lock)

/-- `Projection.apply` (the full entry point): a projection to the
target's own columns is a no-op; guard ordering; require the projected
columns; when a preferred engine differs, backtrack (returning early if
the rewrite reached the requested columns), then transfer or optionally
require; fold an inner projection or absorb a dropped calculation;
build the node. -/
def Projection.apply (P : EnginePolicy) (columns : Finset ColumnTag)
    (target : Relation) (preferred_engine : Option Engine)
    (backtrack transfer require_preferred_engine lock strip : Bool) :
    Except RelationError Relation :=
  if columns = target.columns then .ok target
  else
    match target.checkOrder P (.projection columns) strip with
    | .error e => .error e
    | .ok t =>
      if ¬ columns ⊆ t.columns then .error .columnError
      else
        match (match preferred_engine with
               | some pe =>
                 if pe ≠ t.engine then
                   match (if backtrack then Projection.insertRecursive P columns t pe lock
                          else .ok t : Except RelationError Relation) with
                   | .error e => .error e
                   | .ok t2 =>
                     if backtrack ∧ t2.columns = columns then .ok (.inl t2)
                     else if transfer then
                       match Transfer.apply P pe t2 false false with
                       | .error e => .error e
                       | .ok t3 => .ok (.inr t3)
                     else if require_preferred_engine then .error .engineError
                     else .ok (.inr t2)
                 else .ok (.inr t)
               | none => .ok (.inr t) : Except RelationError (Relation ⊕ Relation)) with
        | .error e => .error e
        | .ok (.inl result) => .ok result
        | .ok (.inr t2) =>
          match t2 with
          | .unary (.projection _) nested_target _ _ =>
            Projection.applyDefault P columns nested_target false false
          | .unary (.calculation tag _) nested_target _ _ =>
            if tag ∉ columns then Projection.applyDefault P columns nested_target false false
            else .ok ((UnaryOperation.projection columns).superApply t2 lock)
          | _ => .ok ((UnaryOperation.projection columns).superApply t2 lock)

/-- The SQL engine's `preserves_order` policy (`sql/_engine.py`):
`Slice` and `Deduplication` preserve order; a `Transfer` whose
destination is this engine itself does not, and one to another engine
delegates to the destination's policy (`P` models the dynamic dispatch
to the destination engine object); every other operation does not
preserve order. -/
def sqlPreservesOrder (P : EnginePolicy) (self : Engine) : UnaryOperation → Bool
  | .slice _ _ => true
  | .deduplication _ => true
  | .transfer destination =>
    if destination = self then false
    else P.preserves_order destination (.transfer destination)
  | _ => false

instance {ε α : Type} [DecidableEq ε] [DecidableEq α] : DecidableEq (Except ε α) :=
  fun a b =>
    match a, b with
    | .ok x, .ok y =>
      if h : x = y then isTrue (by rw [h])
      else isFalse (fun hc => h (by cases hc; rfl))
    | .error x, .error y =>
      if h : x = y then isTrue (by rw [h])
      else isFalse (fun hc => h (by cases hc; rfl))
    | .ok _, .error _ => isFalse (fun hc => Except.noConfusion hc)
    | .error _, .ok _ => isFalse (fun hc => Except.noConfusion hc)

/-- A key column tag used in concrete scenarios. -/
def tagA : ColumnTag := ⟨0, true⟩

/-- A second key column tag used in concrete scenarios. -/
def tagB : ColumnTag := ⟨1, true⟩

/-- A non-key column tag used in concrete scenarios. -/
def tagC : ColumnTag := ⟨2, false⟩

/-- An engine policy under which every operation preserves order in
every engine (so no scenario below trips the row-order guards). -/
def allPreserves : EnginePolicy := ⟨fun _ _ => true, fun _ => true⟩

/-- Whether a relation's root operation is a `Selection`. -/
def Relation.isSelectionRooted : Relation → Bool
  | .unary (.selection _) _ _ _ => true
  | _ => false

/-- Whether a relation's root operation is a `Slice`. -/
def Relation.isSliceRooted : Relation → Bool
  | .unary (.slice _ _) _ _ _ => true
  | _ => false

/-- Whether a relation's root operation is a `Projection` or a
`Calculation` (the two shapes `Projection.apply` absorbs). -/
def Relation.isProjectionOrCalculationRooted : Relation → Bool
  | .unary (.projection _) _ _ _ => true
  | .unary (.calculation _ _) _ _ _ => true
  | _ => false

/-- Claim C1: `Join.apply` with resolved common columns should raise
`ColumnError` whenever `rhs.columns` is not a superset of the common
columns.  The source instead tests `lhs.columns` in both checks
(`_join.py` lines 164 and 169, the second check's error message names
the right-hand side): at this input the right-hand side lacks the common
column `tagA`, yet `apply` succeeds and builds the join node. -/
theorem C1_join_rhs_columns_unchecked :
    decide (({tagA} : Finset ColumnTag)
        ⊆ (Relation.leaf 1 {tagB} 0 (some 4) false).columns) = false
    ∧ Join.apply allPreserves (.literal true) {tagA} (some {tagA})
        (.leaf 1 {tagA} 0 (some 4) false) (.leaf 1 {tagB} 0 (some 4) false) false false
      = .ok (.binary (.join (.literal true) {tagA} (some {tagA}))
          (.leaf 1 {tagA} 0 (some 4) false) (.leaf 1 {tagB} 0 (some 4) false)
          ({tagA} ∪ {tagB}) false) := by
  decide

/-- The engine-1 leaf with column `tagA` used in the claim C2 scenario. -/
def c2LeafA : Relation := .leaf 1 {tagA} 0 (some 5) false

/-- The engine-1 leaf with column `tagB` used in the claim C2 scenario. -/
def c2LeafB : Relation := .leaf 1 {tagB} 0 (some 5) false

/-- A join (in engine 2, below transfers from engine 1) of the two
leaves, as `apply` builds it: the failing input of claim C2. -/
def c2Join : Relation :=
  .binary (.join (.literal true) ∅ (some ∅))
    (.unary (.transfer 2) c2LeafA {tagA} false)
    (.unary (.transfer 2) c2LeafB {tagB} false)
    ({tagA} ∪ {tagB}) false

/-- The tree `Deduplication._insert_recursive` actually returns on the
claim C2 scenario: the rewritten right-hand branch joined with itself. -/
def c2Backtracked : Relation :=
  .binary (.join (.literal true) ∅ (some ∅))
    (.unary (.transfer 2) (.unary (.deduplication (some [tagA])) c2LeafB {tagB} false)
      {tagB} false)
    (.unary (.transfer 2) (.unary (.deduplication (some [tagA])) c2LeafB {tagB} false)
      {tagB} false)
    ({tagB} ∪ {tagB}) false

/-- Claim C2: a `Deduplication` pushed through a `Join` by a successful
backtrack should yield the same columns, `min_rows` and `max_rows` as
applying it without backtracking.  The source recombines the join as
`operation.apply(new_join_rhs, new_join_rhs)` (`_deduplication.py` line
209), joining the rewritten right-hand branch with itself: on this input
the backtracked tree has columns `{tagB}` while the plain application
has columns `{tagA, tagB}` (and `min_rows` 0 instead of 1). -/
theorem C2_dedup_backtrack_joins_rhs_with_itself :
    Deduplication.apply allPreserves (some [tagA]) c2Join (some 1) true false false
        false false
      = .ok c2Backtracked
    ∧ Deduplication.apply allPreserves (some [tagA]) c2Join none true false false
        false false
      = .ok (.unary (.deduplication (some [tagA])) c2Join ({tagA} ∪ {tagB}) false)
    ∧ decide (c2Backtracked.columns
        = (Relation.unary (.deduplication (some [tagA])) c2Join ({tagA} ∪ {tagB})
            false).columns) = false
    ∧ c2Backtracked.min_rows = 0
    ∧ (Relation.unary (.deduplication (some [tagA])) c2Join ({tagA} ∪ {tagB})
        false).min_rows = 1 := by
  decide

/-- Claim C3: every relation built by public `apply` calls should satisfy
`min_rows ≤ max_rows` when `max_rows` is finite.
`Deduplication.applied_min_rows` returns 1 unconditionally
(`_deduplication.py` line 237), so deduplicating a relation with
`max_rows = 0` builds a relation with `min_rows = 1 > max_rows = 0`,
violating the invariant. -/
theorem C3_dedup_min_rows_exceeds_max_rows :
    Deduplication.apply allPreserves (some [tagA]) (.leaf 1 {tagA} 0 (some 0) false)
        none true false false false false
      = .ok (.unary (.deduplication (some [tagA])) (.leaf 1 {tagA} 0 (some 0) false)
          {tagA} false)
    ∧ (Relation.unary (.deduplication (some [tagA])) (.leaf 1 {tagA} 0 (some 0) false)
        {tagA} false).min_rows = 1
    ∧ (Relation.unary (.deduplication (some [tagA])) (.leaf 1 {tagA} 0 (some 0) false)
        {tagA} false).max_rows = some 0 := by
  decide

theorem Relation.expect_unordered_of_not_ordered (P : EnginePolicy) (strip : Bool)
    (r : Relation) (h : r.isOrdered P = false) : r.expect_unordered P strip = .ok r := by
  unfold Relation.expect_unordered
  simp [h]

theorem Relation.checkOrder_of_not_ordered (P : EnginePolicy) (op : UnaryOperation)
    (strip : Bool) (r : Relation) (h : r.isOrdered P = false) :
    r.checkOrder P op strip = .ok r := by
  unfold Relation.checkOrder
  split
  · exact Relation.expect_unordered_of_not_ordered P strip r h
  · rfl

/-- Claim C7: the SQL engine's `preserves_order` policy returns `true`
for every `Slice` and `Deduplication`; for a `Transfer` it returns
`false` when the destination is this engine itself and otherwise
delegates to the destination's policy; and it returns `false` for every
other operation. -/
theorem C7_sql_preserves_order_policy (P : EnginePolicy) (self : Engine) :
    (∀ start stop, sqlPreservesOrder P self (.slice start stop) = true)
    ∧ (∀ unique_key, sqlPreservesOrder P self (.deduplication unique_key) = true)
    ∧ (sqlPreservesOrder P self (.transfer self) = false)
    ∧ (∀ destination, destination ≠ self →
        sqlPreservesOrder P self (.transfer destination)
          = P.preserves_order destination (.transfer destination))
    ∧ (∀ tag expression, sqlPreservesOrder P self (.calculation tag expression) = false)
    ∧ (∀ columns, sqlPreservesOrder P self (.projection columns) = false)
    ∧ (∀ predicate, sqlPreservesOrder P self (.selection predicate) = false)
    ∧ (∀ terms, sqlPreservesOrder P self (.sort terms) = false)
    ∧ (∀ name, sqlPreservesOrder P self (.materialization name) = false)
    ∧ (sqlPreservesOrder P self .identity = false) := by
  refine ⟨fun _ _ => rfl, fun _ => rfl, ?_, fun destination hd => ?_,
    fun _ _ => rfl, fun _ => rfl, fun _ => rfl, fun _ => rfl, fun _ => rfl, rfl⟩
  · simp [sqlPreservesOrder]
  · simp [sqlPreservesOrder, hd]

/-- Witness for claim C7 at a concrete policy and engines. -/
theorem C7_sql_preserves_order_policy_witness :
    (1 : Engine) ≠ (0 : Engine)
    ∧ sqlPreservesOrder allPreserves 0 (.transfer 1)
        = allPreserves.preserves_order 1 (.transfer 1) :=
  ⟨by decide, ((C7_sql_preserves_order_policy allPreserves 0).2.2.2.1 1 (by decide))⟩

theorem Slice.apply_max_rows (target : Relation) :
    ∀ start stop lock, (Slice.apply start stop target lock).max_rows = target.max_rows := by
  induction target with
  | leaf e c mn mx l =>
    intro start stop lock
    unfold Slice.apply
    split
    · rfl
    · rfl
  | unary op t cols lck ih =>
    intro start stop lock
    unfold Slice.apply
    split
    · rfl
    · cases op with
      | slice ps pstop =>
        simp only []
        rw [ih]
        rfl
      | calculation tag e => rfl
      | projection c => rfl
      | selection p => rfl
      | deduplication k => rfl
      | sort ts => rfl
      | materialization n => rfl
      | transfer d => rfl
      | identity => rfl
  | binary op lhs rhs cols lck ihl ihr =>
    intro start stop lock
    unfold Slice.apply
    split
    · rfl
    · rfl

/-- Claim C9: slicing never tightens the upper row bound: for every
`Slice` applied to a target, the result's `max_rows` equals the
target's, even when `stop` is finite; only `min_rows` is adjusted, a
`Slice` node reporting `min(stop - start, target.min_rows)`; in
particular slicing an unbounded relation still reports
`max_rows = none`. -/
theorem C9_slice_max_rows_unchanged (target : Relation) :
    (∀ start stop lock, (Slice.apply start stop target lock).max_rows = target.max_rows)
    ∧ (∀ start stop columns lock,
        (Relation.unary (.slice start (some stop)) target columns lock).min_rows
          = min (stop - start) target.min_rows)
    ∧ (∀ start stop lock, target.max_rows = none →
        (Slice.apply start (some stop) target lock).max_rows = none) := by
  refine ⟨Slice.apply_max_rows target, fun _ _ _ _ => rfl, fun start stop lock h => ?_⟩
  rw [Slice.apply_max_rows target start (some stop) lock, h]

/-- Witness for claim C9: slicing an unbounded leaf to at most 3 rows
still reports an unbounded `max_rows`. -/
theorem C9_slice_max_rows_unchanged_witness :
    (Relation.leaf 0 {tagA} 2 none false).max_rows = none
    ∧ (Slice.apply 0 (some 3) (.leaf 0 {tagA} 2 none false) false).max_rows = none :=
  ⟨rfl, (C9_slice_max_rows_unchanged (.leaf 0 {tagA} 2 none false)).2.2 0 3 false rfl⟩

/-- Claim C10: `Deduplication.apply` with a non-`None` `unique_key`
never validates that the key is a subset of the target's columns: it
raises no `ColumnError` and builds the node for any key whatsoever,
because `apply` only calls `_applied_unique_key` when `unique_key` is
`None`; the subset-check branch of `_applied_unique_key` (which would
reject an out-of-columns key) is unreachable. -/
theorem C10_dedup_unique_key_never_validated (P : EnginePolicy)
    (unique_key : List ColumnTag) (target : Relation)
    (hord : target.isOrdered P = false) :
    Deduplication.apply P (some unique_key) target none true false false false false
      = .ok (.unary (.deduplication (some unique_key)) target target.columns false)
    ∧ (¬ unique_key.toFinset ⊆ target.columns →
        Deduplication.appliedUniqueKey (some unique_key) target = .error .columnError) := by
  constructor
  · unfold Deduplication.apply Deduplication.applyWithKey
    simp only [Relation.checkOrder_of_not_ordered P (.deduplication (some unique_key))
      false target hord]
    rfl
  · intro hk
    unfold Deduplication.appliedUniqueKey
    simp [hk]

/-- Witness for claim C10: deduplicating an unordered leaf with a key
that is not among its columns succeeds without any error, while the dead
subset check would have rejected it. -/
theorem C10_dedup_unique_key_never_validated_witness :
    (Relation.leaf 1 {tagA} 0 (some 5) false).isOrdered allPreserves = false
    ∧ Deduplication.apply allPreserves (some [tagC]) (.leaf 1 {tagA} 0 (some 5) false)
        none true false false false false
      = .ok (.unary (.deduplication (some [tagC])) (.leaf 1 {tagA} 0 (some 5) false)
          {tagA} false)
    ∧ Deduplication.appliedUniqueKey (some [tagC]) (.leaf 1 {tagA} 0 (some 5) false)
      = .error .columnError := by
  have h := C10_dedup_unique_key_never_validated allPreserves [tagC]
    (.leaf 1 {tagA} 0 (some 5) false) (by decide)
  exact ⟨by decide, h.1, h.2 (by decide)⟩

/-- Claim C8: with no preferred engine, `Calculation.apply` on an
unordered target raises `ColumnError` exactly when the expression
requires a column the target lacks or the tag already exists; when
neither holds and the engine supports the expression, it returns the
node whose columns are the target's plus the tag. -/
theorem C8_calculation_column_errors (P : EnginePolicy) (tag : ColumnTag)
    (expression : ColumnExpression) (target : Relation)
    (hord : target.isOrdered P = false) :
    ((Calculation.apply P tag expression target none true false false false false
        = .error .columnError)
      ↔ (¬ expression.columns_required ⊆ target.columns ∨ tag ∈ target.columns))
    ∧ (expression.columns_required ⊆ target.columns → tag ∉ target.columns →
        expression.is_supported_by target.engine = true →
        Calculation.apply P tag expression target none true false false false false
          = .ok (.unary (.calculation tag expression) target
              (insert tag target.columns) false)) := by
  unfold Calculation.apply
  simp only [Relation.checkOrder_of_not_ordered P (.calculation tag expression) false
    target hord]
  by_cases hsub : expression.columns_required ⊆ target.columns
    <;> by_cases htag : tag ∈ target.columns
    <;> by_cases hsupp : expression.is_supported_by target.engine = true
    <;> simp [hsub, htag, hsupp, UnaryOperation.superApply, UnaryOperation.applied_columns]

/-- Witness for claim C8: a calculation of a fresh non-key column from a
supported expression over an existing column succeeds with the expected
column set. -/
theorem C8_calculation_column_errors_witness :
    (Relation.leaf 0 {tagA} 1 (some 2) false).isOrdered allPreserves = false
    ∧ Calculation.apply allPreserves tagC (.function 0 [tagA] [0])
        (.leaf 0 {tagA} 1 (some 2) false) none true false false false false
      = .ok (.unary (.calculation tagC (.function 0 [tagA] [0]))
          (.leaf 0 {tagA} 1 (some 2) false) (insert tagC {tagA}) false) := by
  have h := C8_calculation_column_errors allPreserves tagC (.function 0 [tagA] [0])
    (.leaf 0 {tagA} 1 (some 2) false) (by decide)
  exact ⟨by decide, h.2 (by decide) (by decide) (by decide)⟩

/-- The merged stop bound of two stacked slices as the specification
states it: `min(inner.stop, inner.start + outer.stop)` with `None`
propagating as the absence of a bound. -/
def optMin : Option Nat → Option Nat → Option Nat
  | none, b => b
  | some a, none => some a
  | some a, some b => some (min a b)

theorem Slice.apply_not_rooted (start : Nat) (stop : Option Nat) (x : Relation)
    (lock : Bool) (h : ¬ (start = 0 ∧ stop = none)) (hroot : x.isSliceRooted = false) :
    Slice.apply start stop x lock = (UnaryOperation.slice start stop).superApply x lock := by
  unfold Slice.apply
  rw [if_neg h]
  cases x with
  | leaf e c mn mx l => rfl
  | unary op t c l =>
    cases op
    case slice a b => simp [Relation.isSliceRooted] at hroot
    all_goals rfl
  | binary op lhs rhs c l => rfl

/-- Claim C4: `Slice` with `start=0`, `stop=None` returns the target
unchanged, and an outer slice applied to a slice node merges into a
single slice over the inner target with
`new_start = inner.start + outer.start` and
`new_stop = min(inner.stop, inner.start + outer.stop)` (with `None`
propagating as the absence of a bound); e.g. `slice[2:10]` over
`slice[1:5](x)` yields `Slice(3, 5)` over `x`. -/
theorem C4_slice_noop_and_merge (x : Relation) :
    (∀ lock, Slice.apply 0 none x lock = x)
    ∧ (∀ start stop previous_start previous_stop,
        ¬ (previous_start = 0 ∧ previous_stop = none) →
        x.isSliceRooted = false →
        Slice.apply start stop
          (.unary (.slice previous_start previous_stop) x x.columns false) false
        = .unary (.slice (previous_start + start)
            (optMin previous_stop (stop.map (· + previous_start))))
            x x.columns false) := by
  constructor
  · intro lock
    unfold Slice.apply
    simp
  · intro start stop ps pstop hps hroot
    cases pstop with
    | none =>
      have hpsne : ps ≠ 0 := fun h0 => hps ⟨h0, rfl⟩
      cases stop with
      | none =>
        by_cases hstart : start = 0
        · subst hstart
          unfold Slice.apply
          simp [optMin]
        · have houter : ¬ (start = 0 ∧ (none : Option Nat) = none) := fun h => hstart h.1
          unfold Slice.apply
          rw [if_neg houter]
          simp only []
          rw [Slice.apply_not_rooted (ps + start) none x false
            (fun h => hpsne (by omega)) hroot]
          simp [UnaryOperation.superApply, UnaryOperation.applied_columns, optMin]
      | some s =>
        have houter : ¬ (start = 0 ∧ (some s : Option Nat) = none) := fun h => by
          cases h.2
        unfold Slice.apply
        rw [if_neg houter]
        simp only []
        rw [Slice.apply_not_rooted (ps + start) (some (s + ps)) x false
          (fun h => by cases h.2) hroot]
        simp [UnaryOperation.superApply, UnaryOperation.applied_columns, optMin]
    | some p =>
      cases stop with
      | none =>
        by_cases hstart : start = 0
        · subst hstart
          unfold Slice.apply
          simp [optMin]
        · have houter : ¬ (start = 0 ∧ (none : Option Nat) = none) := fun h => hstart h.1
          unfold Slice.apply
          rw [if_neg houter]
          simp only []
          rw [Slice.apply_not_rooted (ps + start) (some p) x false
            (fun h => by cases h.2) hroot]
          simp [UnaryOperation.superApply, UnaryOperation.applied_columns, optMin]
      | some s =>
        have houter : ¬ (start = 0 ∧ (some s : Option Nat) = none) := fun h => by
          cases h.2
        unfold Slice.apply
        rw [if_neg houter]
        simp only []
        rw [Slice.apply_not_rooted (ps + start) (some (min p (s + ps))) x false
          (fun h => by cases h.2) hroot]
        simp [UnaryOperation.superApply, UnaryOperation.applied_columns, optMin]

/-- Witness for claim C4: the specification's example,
`slice[2:10](slice[1:5](x))` = `Slice(3, 5)` applied to `x`. -/
theorem C4_slice_noop_and_merge_witness :
    Slice.apply 2 (some 10)
        (.unary (.slice 1 (some 5)) (.leaf 0 {tagA} 10 (some 20) false)
          {tagA} false) false
      = .unary (.slice 3 (some 5)) (.leaf 0 {tagA} 10 (some 20) false) {tagA} false := by
  have h := (C4_slice_noop_and_merge (.leaf 0 {tagA} 10 (some 20) false)).2
    2 (some 10) 1 (some 5) (by simp) (by decide)
  simpa [optMin] using h

theorem selectionApplyDefault_not_rooted (P : EnginePolicy) (pred : Predicate)
    (nested : Relation) (lock strip : Bool)
    (hord : nested.isOrdered P = false)
    (htriv : pred.as_trivial ≠ some true)
    (hcols : pred.columns_required ⊆ nested.columns)
    (hsupp : pred.is_supported_by nested.engine = true)
    (hroot : nested.isSelectionRooted = false) :
    Selection.applyDefault P pred nested lock strip
      = .ok ((UnaryOperation.selection pred).superApply nested lock) := by
  unfold Selection.applyDefault
  rw [if_neg htriv, if_neg (fun hc => hc hcols)]
  split
  · rename_i e heq
    rw [Relation.checkOrder_of_not_ordered P (.selection pred) strip nested hord] at heq
    exact Except.noConfusion heq
  · rename_i t heq
    rw [Relation.checkOrder_of_not_ordered P (.selection pred) strip nested hord] at heq
    injection heq with heq2
    subst heq2
    rw [if_neg (fun hc => hc hsupp)]
    cases nested with
    | leaf e c mn mx l => rfl
    | unary op t c l =>
      cases op
      case selection q => simp [Relation.isSelectionRooted] at hroot
      all_goals rfl
    | binary op lhs rhs c l => rfl

theorem Selection.apply_none_not_rooted (P : EnginePolicy) (pred : Predicate)
    (x : Relation) (lock strip : Bool)
    (hord : x.isOrdered P = false)
    (htriv : pred.as_trivial ≠ some true)
    (hcols : pred.columns_required ⊆ x.columns)
    (hsupp : pred.is_supported_by x.engine = true)
    (hroot : x.isSelectionRooted = false) :
    Selection.apply P pred x none true false false lock strip
      = .ok ((UnaryOperation.selection pred).superApply x lock) := by
  unfold Selection.apply
  rw [if_neg htriv, if_neg (fun hc => hc hcols)]
  simp only [Relation.checkOrder_of_not_ordered P (.selection pred) strip x hord]
  rw [if_neg (fun hc => hc hsupp)]
  cases x with
  | leaf e c mn mx l => rfl
  | unary op t c l =>
    cases op
    case selection q => simp [Relation.isSelectionRooted] at hroot
    all_goals rfl
  | binary op lhs rhs c l => rfl

/-- Claim C5: a `Selection` with a trivially-true predicate returns the
target unchanged; a trivially-false predicate still produces a
`Selection` node (the doomed relation is preserved); and a `Selection`
applied to a relation rooted in another `Selection` produces a single
`Selection` node over the inner target whose predicate is the AND of the
two predicates (as normalized by the `Selection` constructor), so no two
adjacent `Selection` nodes occur. -/
theorem C5_selection_trivial_and_merge (P : EnginePolicy) :
    (∀ (predicate : Predicate) (x : Relation) (preferred_engine : Option Engine)
        (backtrack transfer require_preferred_engine lock strip : Bool),
        predicate.as_trivial = some true →
        Selection.apply P predicate x preferred_engine backtrack transfer
          require_preferred_engine lock strip = .ok x)
    ∧ (∀ x : Relation, x.isOrdered P = false → x.isSelectionRooted = false →
        Selection.apply P (.literal false) x none true false false false false
          = .ok (.unary (.selection (.literal false)) x x.columns false))
    ∧ (∀ (q p : Predicate) (nested : Relation) (lk : Bool),
        nested.isOrdered P = false →
        nested.isSelectionRooted = false →
        p.as_trivial ≠ some true →
        p.columns_required ⊆ nested.columns →
        p.is_supported_by nested.engine = true →
        (Selection.normalizePredicate (.logical_and q p)).as_trivial ≠ some true →
        (Selection.normalizePredicate (.logical_and q p)).columns_required
          ⊆ nested.columns →
        (Selection.normalizePredicate (.logical_and q p)).is_supported_by nested.engine
          = true →
        Selection.apply P p (.unary (.selection q) nested nested.columns lk)
          none true false false false false
        = .ok (.unary (.selection (Selection.normalizePredicate (.logical_and q p)))
            nested nested.columns false)) := by
  refine ⟨?_, ?_, ?_⟩
  · intro predicate x preferred_engine backtrack transfer require_preferred_engine
      lock strip htriv
    unfold Selection.apply
    rw [if_pos htriv]
  · intro x hord hroot
    have h := Selection.apply_none_not_rooted P (.literal false) x false false hord
      (by simp [Predicate.as_trivial]) (by simp [Predicate.columns_required]) rfl hroot
    exact h
  · intro q p nested lk hord hroot hptriv hpcols hpsupp hmtriv hmcols hmsupp
    have htargetord :
        (Relation.unary (.selection q) nested nested.columns lk).isOrdered P = false := by
      simp [Relation.isOrdered, hord]
    unfold Selection.apply
    rw [if_neg hptriv]
    rw [if_neg (fun hc => hc hpcols)]
    simp only [Relation.checkOrder_of_not_ordered P (.selection p) false _ htargetord]
    rw [if_neg (fun hc => hc hpsupp)]
    exact selectionApplyDefault_not_rooted P _ nested false false hord hmtriv hmcols
      hmsupp hroot

/-- Witness for claim C5 at concrete predicates and relations: a
trivially-true selection is a no-op, a trivially-false one builds a
node, and two stacked selections merge into one AND node. -/
theorem C5_selection_trivial_and_merge_witness :
    Selection.apply allPreserves (.literal true) (.leaf 0 {tagA} 1 (some 2) false)
        none true false false false false
      = .ok (.leaf 0 {tagA} 1 (some 2) false)
    ∧ Selection.apply allPreserves (.literal false) (.leaf 0 {tagA} 1 (some 2) false)
        none true false false false false
      = .ok (.unary (.selection (.literal false)) (.leaf 0 {tagA} 1 (some 2) false)
          {tagA} false)
    ∧ Selection.apply allPreserves (.reference tagB)
        (.unary (.selection (.reference tagA)) (.leaf 0 {tagA, tagB} 1 (some 2) false)
          {tagA, tagB} false)
        none true false false false false
      = .ok (.unary (.selection (.logical_and (.reference tagA) (.reference tagB)))
          (.leaf 0 {tagA, tagB} 1 (some 2) false) {tagA, tagB} false) := by
  have h := C5_selection_trivial_and_merge allPreserves
  refine ⟨h.1 (.literal true) (.leaf 0 {tagA} 1 (some 2) false) none true false false
      false false rfl,
    h.2.1 (.leaf 0 {tagA} 1 (some 2) false) (by decide) (by decide), ?_⟩
  have h3 := h.2.2 (.reference tagA) (.reference tagB)
    (.leaf 0 {tagA, tagB} 1 (some 2) false) false (by decide) (by decide)
    (by decide) (by decide) (by decide) (by decide) (by decide) (by decide)
  exact h3

theorem projectionApplyDefault_not_rooted (P : EnginePolicy) (columns : Finset ColumnTag)
    (nested : Relation) (lock strip : Bool)
    (hord : nested.isOrdered P = false)
    (hne : columns ≠ nested.columns)
    (hsub : columns ⊆ nested.columns)
    (hroot : nested.isProjectionOrCalculationRooted = false) :
    Projection.applyDefault P columns nested lock strip
      = .ok ((UnaryOperation.projection columns).superApply nested lock) := by
  unfold Projection.applyDefault
  rw [if_neg hne]
  split
  · rename_i e heq
    rw [Relation.checkOrder_of_not_ordered P (.projection columns) strip nested hord] at heq
    exact Except.noConfusion heq
  · rename_i t heq
    rw [Relation.checkOrder_of_not_ordered P (.projection columns) strip nested hord] at heq
    injection heq with heq2
    subst heq2
    rw [if_neg (fun hc => hc hsub)]
    cases nested with
    | leaf e c mn mx l => rfl
    | unary op t c l =>
      cases op
      case projection c2 => simp [Relation.isProjectionOrCalculationRooted] at hroot
      case calculation tag2 e2 => simp [Relation.isProjectionOrCalculationRooted] at hroot
      all_goals rfl
    | binary op lhs rhs c l => rfl

/-- Claim C6: a `Projection` to column set `A` applied to a relation
rooted in a `Calculation` adding a tag not in `A` equals the projection
applied directly to the calculation's target: the calculation node is
absent, the result's columns are exactly `A`, and its `min_rows` and
`max_rows` equal those of the un-projected tree; likewise a projection
to a target's own columns returns the target unchanged. -/
theorem C6_projection_absorbs_calculation (P : EnginePolicy) (cols : Finset ColumnTag)
    (tag : ColumnTag) (expression : ColumnExpression) (nested : Relation)
    (hord : nested.isOrdered P = false)
    (htag : tag ∉ cols)
    (hsub : cols ⊆ insert tag nested.columns)
    (hroot : nested.isProjectionOrCalculationRooted = false) :
    (Projection.apply P cols
        (.unary (.calculation tag expression) nested (insert tag nested.columns) false)
        none true false false false false
      = .ok (if cols = nested.columns then nested
             else .unary (.projection cols) nested cols false))
    ∧ (if cols = nested.columns then nested
       else Relation.unary (.projection cols) nested cols false).columns = cols
    ∧ (if cols = nested.columns then nested
       else Relation.unary (.projection cols) nested cols false).min_rows
        = (Relation.unary (.calculation tag expression) nested
            (insert tag nested.columns) false).min_rows
    ∧ (if cols = nested.columns then nested
       else Relation.unary (.projection cols) nested cols false).max_rows
        = (Relation.unary (.calculation tag expression) nested
            (insert tag nested.columns) false).max_rows
    ∧ (∀ (y : Relation) (preferred_engine : Option Engine)
        (backtrack transfer require_preferred_engine lock strip : Bool),
        Projection.apply P y.columns y preferred_engine backtrack transfer
          require_preferred_engine lock strip = .ok y) := by
  have hsub' : cols ⊆ nested.columns := by
    intro c hc
    rcases Finset.mem_insert.mp (hsub hc) with h1 | h2
    · exact absurd (h1 ▸ hc) htag
    · exact h2
  have hne : cols ≠ insert tag nested.columns :=
    fun he => htag (he ▸ Finset.mem_insert_self tag nested.columns)
  have hnodeord :
      (Relation.unary (.calculation tag expression) nested (insert tag nested.columns)
        false).isOrdered P = false := by
    simp [Relation.isOrdered, hord]
  refine ⟨?_, ?_, ?_, ?_, ?_⟩
  · unfold Projection.apply
    rw [if_neg (by simpa [Relation.columns] using hne)]
    simp only [Relation.checkOrder_of_not_ordered P (.projection cols) false _ hnodeord]
    rw [if_neg (fun hc => hc (by simpa [Relation.columns] using hsub))]
    rw [if_pos htag]
    by_cases hc : cols = nested.columns
    · rw [if_pos hc]
      unfold Projection.applyDefault
      rw [if_pos hc]
    · rw [if_neg hc]
      rw [projectionApplyDefault_not_rooted P cols nested false false hord hc hsub' hroot]
      rfl
  · by_cases hc : cols = nested.columns
    · rw [if_pos hc]
      exact hc.symm
    · rw [if_neg hc]
      rfl
  · by_cases hc : cols = nested.columns
    · rw [if_pos hc]
      rfl
    · rw [if_neg hc]
      rfl
  · by_cases hc : cols = nested.columns
    · rw [if_pos hc]
      rfl
    · rw [if_neg hc]
      rfl
  · intro y preferred_engine backtrack transfer require_preferred_engine lock strip
    unfold Projection.apply
    rw [if_pos rfl]

/-- Witness for claim C6: projecting `{tagA}` out of a calculation of
`tagC` from columns `{tagA, tagB}` drops the calculation node and keeps
the row bounds. -/
theorem C6_projection_absorbs_calculation_witness :
    Projection.apply allPreserves {tagA}
        (.unary (.calculation tagC (.function 0 [tagA, tagB] [0]))
          (.leaf 0 {tagA, tagB} 3 (some 7) false)
          (insert tagC {tagA, tagB}) false)
        none true false false false false
      = .ok (.unary (.projection {tagA}) (.leaf 0 {tagA, tagB} 3 (some 7) false)
          {tagA} false) := by
  have h := (C6_projection_absorbs_calculation allPreserves {tagA} tagC
    (.function 0 [tagA, tagB] [0]) (.leaf 0 {tagA, tagB} 3 (some 7) false)
    (by decide) (by decide) (by decide) (by decide)).1
  simp only [Relation.columns] at h
  rw [if_neg (show ¬ ({tagA} : Finset ColumnTag) = {tagA, tagB} by decide)] at h
  exact h
